import Mathlib

/-!
Verification development for the RAG chatbot backend's data ingestion
pipeline (`backend/app/services/data_ingestion_service.py`), the YouTube
URL classification (`backend/app/services/youtube_downloader_service.py`,
`backend/app/api/routes.py`), the transcription text-correction stage
(`backend/app/services/text_correction_service.py`) and the in-memory
async task tracker (`backend/app/api/routes.py`).

The Python code is shallowly embedded: external collaborators (text
splitter, embedding model, vector store, document loaders, downloader,
transcription engine, persistence layer) are an explicit `Env` record of
fallible capabilities (`Except PyErr`), Python dicts are ordered
association lists with `dict.update` semantics, and each service method
becomes a Lean function over `Env` that additionally reports the list of
vector-store calls it performed and the final content of the
caller-supplied metadata dict (to capture in-place mutation).
-/

deriving instance DecidableEq for Except

namespace RagChatbot

/-- A Python exception value, reduced to its message. -/
structure PyErr where
  msg : String
deriving DecidableEq, Repr

/-- Python values that appear in metadata dicts in this code base. -/
inductive Val where
  | str (s : String)
  | bool (b : Bool)
  | int (n : Int)
  | none
deriving DecidableEq, Repr

/-- A Python dict with string keys: an ordered association list whose
operations keep at most one entry per key (as `dict` does). -/
abbrev Dict := List (String × Val)

/-- Python `d[k] = v`: replace the value in place if `k` is present
(keeping its position), otherwise append the new entry at the end. -/
def dictSet : Dict → String → Val → Dict
  | [], k, v => [(k, v)]
  | p :: rest, k, v =>
    if p.1 = k then (k, v) :: rest else p :: dictSet rest k v

/-- Python `d.update(u)`: assign every entry of `u` into `d`, in order. -/
def dictUpdate (d : Dict) : Dict → Dict
  | [] => d
  | (k, v) :: rest => dictUpdate (dictSet d k v) rest

/-- Python `d.get(k)` / `d[k]` lookup (first entry wins; the operations
above keep keys unique, so this is the unique entry). -/
def dictGet? (d : Dict) (k : String) : Option Val :=
  (d.find? (fun p => p.1 = k)).map (·.2)

/-- A LangChain `Document`: page content plus loader-derived metadata. -/
structure Doc where
  page_content : String
  metadata : Dict
deriving DecidableEq, Repr

/-- A transcription database record, reduced to its primary key
(`transcription_record.id` is the only field the ingestion code reads). -/
structure TRec where
  id : Int
deriving DecidableEq, Repr

/-- One call to `ChromaDBService.add_documents` (the vector-store upsert):
the collection name and the three aligned sequences it receives. -/
structure StoreCall where
  collection : String
  documents : List String
  embeddings : List (List Int)
  metadatas : List Dict
deriving DecidableEq, Repr

/-- Call sites of `PersistenceManager.update_transcription` inside
`_process_youtube`, distinguished so an environment can make each site
succeed or raise independently. -/
inductive UpdSite where
  | downloadFailed
  | fileInfo
  | completed
  | noText
  | transcribeFailed
  | outerError
deriving DecidableEq, Repr

/-- The external collaborators of `DataIngestionService`, as injected into
its constructor.  Each fallible Python call is a total Lean function into
`Except PyErr`; a `.error` result models the call raising. -/
structure Env where
  /-- `RecursiveCharacterTextSplitter.split_text` (LangChain). -/
  splitText : String → List String
  /-- `embedding_model.embed_documents` via `EmbeddingFactory`. -/
  embedDocs : List String → Except PyErr (List (List Int))
  /-- `ChromaDBService.add_documents`. -/
  addDocuments : StoreCall → Except PyErr Unit
  /-- `PyPDFLoader(path).load()`. -/
  loadPdf : String → Except PyErr (List Doc)
  /-- `TextLoader(path).load()`. -/
  loadMarkdown : String → Except PyErr (List Doc)
  /-- `UnstructuredURLLoader(urls=[url]).load()`. -/
  loadUrl : String → Except PyErr (List Doc)
  /-- `YouTubeDownloaderService.download_audio`: path of the MP3 on
  success, `none` when the file is not found, `.error` when it raises. -/
  downloadAudio : String → Except PyErr (Option String)
  /-- `WhisperTranscriptionService.transcribe_audio`. -/
  transcribeAudio : String → Except PyErr (Option String)
  /-- `PersistenceManager.create_transcription`. -/
  createTranscription : String → Except PyErr (Option TRec)
  /-- `PersistenceManager.update_transcription`, by record id and site. -/
  updateTranscription : Int → UpdSite → Except PyErr Unit
  /-- `YouTubeDownloaderService.cleanup_file`. -/
  cleanupFile : String → Except PyErr Bool

/-- Result of one `_process_*` call: the boolean the method returns, the
vector-store calls it performed, and the content of the caller-supplied
metadata dict after the call (capturing the in-place `update` mutation). -/
structure PResult where
  ok : Bool
  stores : List StoreCall
  callerMeta : Option Dict
deriving DecidableEq, Repr

/-- The collection name the service is constructed with in
`routes.py` (`DataIngestionService` default argument). -/
def collectionName : String := "default_collection"

/-- Python whitespace: the characters matched by `str.isspace` and by the
regex class `\s` on `str` patterns. -/
def pyIsSpace (c : Char) : Bool :=
  c = ' ' || c = '\t' || c = '\n' || c = '\r' || c = '\x0b' || c = '\x0c' ||
  c = '\x1c' || c = '\x1d' || c = '\x1e' || c = '\x1f' ||
  c.val = 0x85 || c.val = 0xa0 || c.val = 0x1680 ||
  (0x2000 ≤ c.val && c.val ≤ 0x200a) ||
  c.val = 0x2028 || c.val = 0x2029 || c.val = 0x202f || c.val = 0x205f ||
  c.val = 0x3000

/-- Python `str.lstrip()` on a character list. -/
def pyStripL (cs : List Char) : List Char := cs.dropWhile pyIsSpace

/-- Python `str.strip()` on a character list. -/
def pyStrip (cs : List Char) : List Char :=
  ((cs.dropWhile pyIsSpace).reverse.dropWhile pyIsSpace).reverse

/-- Python `str.strip()` on a `String`. -/
def pyStripStr (s : String) : String := ⟨pyStrip s.data⟩

/-- Models `combined_metadata = metadata or \x7b\x7d` followed by
`combined_metadata.update(extra)`.  The first component is the combined
dict the pipeline keeps using; the second is the content of the caller's
own dict after the call: `metadata or ...` aliases the caller's object
exactly when `metadata` is truthy (a non-`None`, non-empty dict), so only
then does the `update` mutate the caller's dict in place. -/
def combineMeta (meta : Option Dict) (extra : Dict) : Dict × Option Dict :=
  match meta with
  | Option.none => (dictUpdate [] extra, Option.none)
  | Option.some d =>
    if d.isEmpty then (dictUpdate [] extra, Option.some d)
    else (dictUpdate d extra, Option.some (dictUpdate d extra))

/-- `DataIngestionService._chunk_embed_and_store` (lines 122-162): chunk
the text, return `False` when there are no chunks, embed, then perform the
single `add_documents` call with one shared metadata dict per chunk.  The
second component lists the vector-store calls performed. -/
def chunkEmbedAndStore (env : Env) (textContent : String)
    (meta : Option Dict) : Except PyErr Bool × List StoreCall :=
  let chunks := env.splitText textContent
  if chunks.isEmpty then (Except.ok false, [])
  else
    match env.embedDocs chunks with
    | Except.error e => (Except.error e, [])
    | Except.ok embs =>
      let metadatas := List.replicate chunks.length (meta.getD [])
      let call : StoreCall := ⟨collectionName, chunks, embs, metadatas⟩
      match env.addDocuments call with
      | Except.error e => (Except.error e, [call])
      | Except.ok _ => (Except.ok true, [call])

/-- `DataIngestionService._process_text` (lines 164-179): delegate to
`_chunk_embed_and_store`, catching every exception as `False`. -/
def processText (env : Env) (text : String) (meta : Option Dict) : PResult :=
  match chunkEmbedAndStore env text meta with
  | (Except.ok b, st) => ⟨b, st, meta⟩
  | (Except.error _, st) => ⟨false, st, meta⟩

/-- Shared body of `_process_pdf` / `_process_markdown` / `_process_url`
(lines 181-309): load documents, fail on an empty document list or
whitespace-only text, merge the first document's metadata over the caller
metadata with `dict.update`, then chunk/embed/store; every exception is
caught and turned into `False`. -/
def processLoaded (env : Env) (loaded : Except PyErr (List Doc))
    (meta : Option Dict) : PResult :=
  match loaded with
  | Except.error _ => ⟨false, [], meta⟩
  | Except.ok [] => ⟨false, [], meta⟩
  | Except.ok (doc :: docs) =>
    let textContent := String.intercalate "\n"
      ((doc :: docs).map (fun d => d.page_content))
    if (pyStripStr textContent).data.isEmpty then ⟨false, [], meta⟩
    else
      let cm := combineMeta meta doc.metadata
      match chunkEmbedAndStore env textContent (Option.some cm.1) with
      | (Except.ok b, st) => ⟨b, st, cm.2⟩
      | (Except.error _, st) => ⟨false, st, cm.2⟩

/-- `DataIngestionService._process_pdf` (lines 181-221). -/
def processPdf (env : Env) (path : String) (meta : Option Dict) : PResult :=
  processLoaded env (env.loadPdf path) meta

/-- `DataIngestionService._process_markdown` (lines 223-267). -/
def processMarkdown (env : Env) (path : String) (meta : Option Dict) :
    PResult :=
  processLoaded env (env.loadMarkdown path) meta

/-- `DataIngestionService._process_url` (lines 269-309). -/
def processUrl (env : Env) (url : String) (meta : Option Dict) : PResult :=
  processLoaded env (env.loadUrl url) meta

/-! ## `urllib.parse.urlparse` netloc extraction and YouTube URL check -/

/-- Characters allowed after the first one in a URL scheme
(`urllib.parse.scheme_chars`). -/
def isSchemeChar (c : Char) : Bool :=
  c.isAlphanum || c = '+' || c = '-' || c = '.'

/-- Split a character list at its first `:`, if any. -/
def splitAtFirstColon : List Char → Option (List Char × List Char)
  | [] => Option.none
  | c :: cs =>
    if c = ':' then Option.some ([], cs)
    else
      match splitAtFirstColon cs with
      | Option.some (a, b) => Option.some (c :: a, b)
      | Option.none => Option.none

/-- CPython `urlsplit` scheme handling: when the text before the first
`:` is non-empty, starts with an ASCII letter and consists of scheme
characters, the scheme (and the colon) is removed. -/
def removeScheme (url : List Char) : List Char :=
  match splitAtFirstColon url with
  | Option.some (scheme, rest) =>
    match scheme with
    | [] => url
    | c :: cs => if c.isAlpha && cs.all isSchemeChar then rest else url
  | Option.none => url

/-- CPython `urlsplit` pre-processing: strip leading/trailing C0 control
characters and spaces, then remove all tab, carriage-return and newline
characters. -/
def whatwgClean (cs : List Char) : List Char :=
  let ctl := fun (c : Char) => c.val ≤ 0x20
  (((cs.dropWhile ctl).reverse.dropWhile ctl).reverse).filter
    (fun c => !(c = '\t' || c = '\r' || c = '\n'))

/-- CPython `urlsplit` netloc: present only when the remainder after the
scheme starts with `//`; it extends to the next `/`, `?` or `#`. -/
def urlNetloc (url : List Char) : List Char :=
  match removeScheme (whatwgClean url) with
  | '/' :: '/' :: rest =>
    rest.takeWhile (fun c => !(c = '/' || c = '?' || c = '#'))
  | _ => []

/-- Python `str.lower()` (ASCII case, which is all these URLs use). -/
def pyLower (cs : List Char) : List Char := cs.map Char.toLower

/-- `YouTubeDownloaderService.is_youtube_url` (lines 33-52): parse the
URL and compare the lower-cased netloc against the fixed allow-list;
`urlsplit` raising (unbalanced brackets in the authority) is caught and
mapped to `False`. -/
def isYoutubeUrl (url : String) : Bool :=
  let n := urlNetloc url.data
  if (n.contains '[' != n.contains ']') then false
  else
    let s : String := ⟨pyLower n⟩
    s = "youtube.com" || s = "www.youtube.com" || s = "youtu.be" ||
      s = "music.youtube.com"

/-! ## `TextCorrectionService` (text_correction_service.py)

The correction pipeline is a sequence of regex passes over the text.  The
regexes involved (`\s+`, `\b<word>\b` with `IGNORECASE`,
`\byou\s+know\b`, `[.!?]$`, `(^|[.!?]\s+)([a-z])`) are modelled directly
as character-list scans.  `re.sub` finds non-overlapping matches left to
right in its input and replaces each, which the scans below reproduce:
a word boundary `\b` holds between a word character (`[A-Za-z0-9_]` for
the ASCII texts this service handles) and a non-word character or the
text's edge, tracked by the `prevWord` flag.  Functions that consume more
than one character per step take a fuel argument; fuel equal to the input
length is always sufficient because every step consumes at least one
character, so the fuel-exhausted branch (which returns the rest
unchanged) is never reached from the wrappers below. -/

/-- Python regex word character `\w` for ASCII text. -/
def pyIsWordChar (c : Char) : Bool := c.isAlphanum || c = '_'

/-- Case-insensitive character comparison (`re.IGNORECASE`, ASCII). -/
def ciEq (a b : Char) : Bool := a.toLower = b.toLower

/-- Strip `w` from the front of `cs` case-insensitively, returning the
rest on success. -/
def stripWordCI : List Char → List Char → Option (List Char)
  | [], cs => Option.some cs
  | _ :: _, [] => Option.none
  | w :: ws, c :: cs => if ciEq c w then stripWordCI ws cs else Option.none

/-- Try to match `w` followed by a word boundary at the front of `cs`
(the leading boundary is checked by the caller); returns the rest. -/
def tryWordTok (w : List Char) (cs : List Char) : Option (List Char) :=
  match stripWordCI w cs with
  | Option.none => Option.none
  | Option.some rest =>
    match rest with
    | [] => Option.some []
    | d :: _ => if pyIsWordChar d then Option.none else Option.some rest

/-- One `re.sub(r"\b<w>\b", repl, text, flags=IGNORECASE)` pass.
`prevWord` records whether the previous character of the input is a word
character (initially false: the text edge is a boundary). -/
def subWordF (w repl : List Char) : Nat → Bool → List Char → List Char
  | 0, _, cs => cs
  | _ + 1, _, [] => []
  | f + 1, prevWord, c :: cs =>
    if prevWord then c :: subWordF w repl f (pyIsWordChar c) cs
    else
      match tryWordTok w (c :: cs) with
      | Option.some rest => repl ++ subWordF w repl f true rest
      | Option.none => c :: subWordF w repl f (pyIsWordChar c) cs

/-- `re.sub(r"\b<w>\b", repl, text, flags=IGNORECASE)`. -/
def subWord (w repl : List Char) (cs : List Char) : List Char :=
  subWordF w repl cs.length false cs

/-- Holds when every match the corresponding `subWordF` scan finds has
matched text equal to the replacement, i.e. the pass changes nothing. -/
def subWordFixedF (w repl : List Char) : Nat → Bool → List Char → Bool
  | 0, _, _ => true
  | _ + 1, _, [] => true
  | f + 1, prevWord, c :: cs =>
    if prevWord then subWordFixedF w repl f (pyIsWordChar c) cs
    else
      match tryWordTok w (c :: cs) with
      | Option.some rest =>
        decide ((c :: cs).take ((c :: cs).length - rest.length) = repl) &&
          subWordFixedF w repl f true rest
      | Option.none => subWordFixedF w repl f (pyIsWordChar c) cs

/-- The literal replacement of the `you know` normalization pass. -/
def youKnowRepl : List Char := ['y', 'o', 'u', ' ', 'k', 'n', 'o', 'w']

/-- Try to match `you\s+know\b` at the front of `cs`; returns the number
of characters consumed and the rest. -/
def tryYouKnowTok (cs : List Char) : Option (Nat × List Char) :=
  match stripWordCI ['y', 'o', 'u'] cs with
  | Option.none => Option.none
  | Option.some r1 =>
    let sp := r1.takeWhile pyIsSpace
    let r2 := r1.dropWhile pyIsSpace
    if sp.isEmpty then Option.none
    else
      match stripWordCI ['k', 'n', 'o', 'w'] r2 with
      | Option.none => Option.none
      | Option.some r3 =>
        match r3 with
        | [] => Option.some (cs.length - r3.length, r3)
        | d :: _ =>
          if pyIsWordChar d then Option.none
          else Option.some (cs.length - r3.length, r3)

/-- One `re.sub(r"\byou\s+know\b", "you know", text, flags=IGNORECASE)`
pass. -/
def subYouKnowF : Nat → Bool → List Char → List Char
  | 0, _, cs => cs
  | _ + 1, _, [] => []
  | f + 1, prevWord, c :: cs =>
    if prevWord then c :: subYouKnowF f (pyIsWordChar c) cs
    else
      match tryYouKnowTok (c :: cs) with
      | Option.some (_, rest) => youKnowRepl ++ subYouKnowF f true rest
      | Option.none => c :: subYouKnowF f (pyIsWordChar c) cs

/-- `re.sub(r"\byou\s+know\b", "you know", text, flags=IGNORECASE)`. -/
def subYouKnow (cs : List Char) : List Char :=
  subYouKnowF cs.length false cs

/-- Holds when every `you\s+know` match is already literally
`you know`, i.e. the normalization pass changes nothing. -/
def subYouKnowFixedF : Nat → Bool → List Char → Bool
  | 0, _, _ => true
  | _ + 1, _, [] => true
  | f + 1, prevWord, c :: cs =>
    if prevWord then subYouKnowFixedF f (pyIsWordChar c) cs
    else
      match tryYouKnowTok (c :: cs) with
      | Option.some (_, rest) =>
        decide ((c :: cs).take ((c :: cs).length - rest.length) = youKnowRepl)
          && subYouKnowFixedF f true rest
      | Option.none => subYouKnowFixedF f (pyIsWordChar c) cs

/-- `re.sub(r"\s+", " ", text)`: replace every maximal whitespace run
with a single space. -/
def collapseWs : List Char → List Char
  | [] => []
  | [c] => [if pyIsSpace c then ' ' else c]
  | c :: d :: cs =>
    if pyIsSpace c && pyIsSpace d then collapseWs (d :: cs)
    else (if pyIsSpace c then ' ' else c) :: collapseWs (d :: cs)

/-- Python `text.split("\n")`. -/
def pySplitNL : List Char → List (List Char)
  | [] => [[]]
  | c :: cs =>
    if c = '\n' then [] :: pySplitNL cs
    else
      match pySplitNL cs with
      | l :: ls => (c :: l) :: ls
      | [] => [[c]]

/-- Python `"\n".join(lines)`. -/
def joinNL (ls : List (List Char)) : List Char :=
  List.intercalate ['\n'] ls

/-- `TextCorrectionService._normalize_whitespace` (lines 63-77):
collapse whitespace runs to single spaces, then strip each line. -/
def normalizeWs (cs : List Char) : List Char :=
  joinNL ((pySplitNL (collapseWs cs)).map pyStrip)

/-- `TextCorrectionService._fix_common_transcription_errors`
(lines 79-102): the five ordered, case-insensitive substitutions of the
`corrections` dict. -/
def fixCommonErrors (cs : List Char) : List Char :=
  subWord ['e', 'r'] []
    (subWord ['u', 'm'] []
      (subWord ['u', 'h'] []
        (subYouKnow
          (subWord ['i'] ['I'] cs))))

/-- Sentence-ending punctuation (`[.!?]`). -/
def isSentPunct (c : Char) : Bool := c = '.' || c = '!' || c = '?'

/-- ASCII lowercase letter (`[a-z]`). -/
def isLowerAZ (c : Char) : Bool := 'a' ≤ c && c ≤ 'z'

/-- Whether a line matches `re.search(r"[.!?]$", line)` (lines produced
by a `split("\n")` contain no newline, so `$` is the line's end). -/
def endsSentPunct (l : List Char) : Bool :=
  match l.getLast? with
  | Option.some c => isSentPunct c
  | Option.none => false

/-- The per-line body of `TextCorrectionService._improve_punctuation`
(lines 116-125): strip the line; append a period when it is non-empty,
lacks terminal punctuation and is longer than 10 characters. -/
def improveLine (l : List Char) : List Char :=
  let ls := pyStrip l
  if !ls.isEmpty && !endsSentPunct ls then
    (if ls.length > 10 then ls ++ ['.'] else ls)
  else ls

/-- `TextCorrectionService._improve_punctuation` (lines 104-127). -/
def improvePunct (cs : List Char) : List Char :=
  joinNL ((pySplitNL cs).map improveLine)

/-- `re.sub(r"(^|[.!?]\s+)([a-z])", upper, text, flags=MULTILINE)`:
uppercase a lowercase letter at a line start or after sentence-ending
punctuation plus whitespace.  `atStart` tracks whether the scan is at the
start of the text or just after a newline (`^` with `MULTILINE`). -/
def capSentF : Nat → Bool → List Char → List Char
  | 0, _, cs => cs
  | _ + 1, _, [] => []
  | f + 1, atStart, c :: cs =>
    if atStart && isLowerAZ c then c.toUpper :: capSentF f false cs
    else if isSentPunct c then
      match cs.dropWhile pyIsSpace with
      | d :: rest =>
        if !(cs.takeWhile pyIsSpace).isEmpty && isLowerAZ d then
          c :: (cs.takeWhile pyIsSpace ++ d.toUpper :: capSentF f false rest)
        else c :: capSentF f (c == '\n') cs
      | [] => c :: capSentF f (c == '\n') cs
    else c :: capSentF f (c == '\n') cs

/-- The regex pass of `TextCorrectionService._capitalize_sentences`
(lines 139-145). -/
def capSent (cs : List Char) : List Char :=
  capSentF cs.length true cs

/-- The final first-character fix of `_capitalize_sentences`
(lines 147-149): uppercase the very first character if lowercase. -/
def capFirstChar : List Char → List Char
  | [] => []
  | c :: cs => if isLowerAZ c then c.toUpper :: cs else c :: cs

/-- `TextCorrectionService._capitalize_sentences` (lines 129-151). -/
def capitalizeSent (cs : List Char) : List Char :=
  capFirstChar (capSent cs)

/-- The `try` body of `TextCorrectionService.correct_transcription`
(lines 44-56): the four passes in order, then `strip()`. -/
def correctCore (cs : List Char) : List Char :=
  pyStrip (capitalizeSent (improvePunct (fixCommonErrors (normalizeWs cs))))

/-- `TextCorrectionService.correct_transcription` (lines 25-61).  The
argument is `Option String` so the Python `None` input is representable;
`None`, the empty string and non-string values hit the explicit
`raise ValueError` on line 42 before the `try` block, so that error
propagates to the caller. -/
def correctTranscriptionPy (raw : Option String) : Except PyErr String :=
  match raw with
  | Option.none => Except.error ⟨"Raw text must be a non-empty string"⟩
  | Option.some s =>
    if s.data.isEmpty then Except.error ⟨"Raw text must be a non-empty string"⟩
    else Except.ok ⟨correctCore s.data⟩

/-! ## Cleanliness predicates for already-corrected text

These formalise, over the embedding above, what it means for a string to
be "already clean" in the sense of the idempotence claim: ASCII,
single-line and single-spaced (the only whitespace is a single `' '`
between non-space characters), trimmed, properly punctuated (ends in
`.`/`!`/`?`), sentence-capitalized (no lowercase letter at the start or
after sentence punctuation plus a space), containing no standalone filler
token `uh`/`um`/`er` in any capitalization and no standalone lowercase
`i` (`subWordFixedF` with replacement `I` permits standalone `I`). -/

/-- Every character is ASCII and every whitespace character is `' '`. -/
def asciiSingleSpaced (cs : List Char) : Bool :=
  cs.all (fun c => c.val < 128 && (!pyIsSpace c || c = ' '))

/-- No two adjacent spaces. -/
def noDoubleSpace : List Char → Bool
  | c :: d :: rest => !(c = ' ' && d = ' ') && noDoubleSpace (d :: rest)
  | _ => true

/-- No lowercase letter directly after sentence punctuation plus a
space. -/
def sentCapOK : List Char → Bool
  | p :: sp :: d :: rest =>
    !(isSentPunct p && pyIsSpace sp && isLowerAZ d) &&
      sentCapOK (sp :: d :: rest)
  | _ => true

/-- Non-empty, and the first character is neither a space nor a
lowercase letter. -/
def headOK : List Char → Bool
  | [] => false
  | c :: _ => !(c = ' ') && !isLowerAZ c

/-- The cleanliness conditions stated by the idempotence claim itself. -/
def isCleanSpec (cs : List Char) : Bool :=
  headOK cs && asciiSingleSpaced cs && noDoubleSpace cs &&
  endsSentPunct cs && sentCapOK cs &&
  subWordFixedF ['i'] ['I'] cs.length false cs &&
  subWordFixedF ['u', 'h'] [] cs.length false cs &&
  subWordFixedF ['u', 'm'] [] cs.length false cs &&
  subWordFixedF ['e', 'r'] [] cs.length false cs

/-- The amended cleanliness conditions: additionally, every occurrence of
the phrase `you know` is already in lowercase (the service rewrites any
case variant of it to lowercase `you know`). -/
def isCleanAmended (cs : List Char) : Bool :=
  isCleanSpec cs && subYouKnowFixedF cs.length false cs

/-! ## `_process_youtube` and `process_source` -/

/-- Outcome of the transcription phase of `_process_youtube`
(lines 389-465): the final values of `raw_transcription` and
`corrected_transcription`, or `abort` when an exception escapes the
phase's `try` blocks to the outer handler (which returns `False`). -/
inductive TransPhase where
  | done (raw corrected : Option String)
  | abort
deriving DecidableEq, Repr

/-- The transcription phase of `_process_youtube` (lines 389-465).
A transcript is treated as present only when truthy (non-empty), matching
`if raw_transcription:` on line 403.  Text correction raising falls back
to the raw transcript (lines 411-422).  A failing
`update_transcription` inside the phase's `try` is caught by the handler
on line 449, which clears `raw_transcription` (line 465) and performs the
error-status update; if that update raises in turn, the exception escapes
to the outer handler (`abort`). -/
def youtubeTransPhase (env : Env) (record : Option TRec) (path : String) :
    TransPhase :=
  match env.transcribeAudio path with
  | Except.error _ =>
    match record with
    | Option.none => TransPhase.done Option.none Option.none
    | Option.some rec =>
      match env.updateTranscription rec.id UpdSite.transcribeFailed with
      | Except.ok _ => TransPhase.done Option.none Option.none
      | Except.error _ => TransPhase.abort
  | Except.ok rawRes =>
    match (match rawRes with
           | Option.some t => if t.data.isEmpty then Option.none
                              else Option.some t
           | Option.none => Option.none) with
    | Option.some t =>
      let corrected :=
        match correctTranscriptionPy (Option.some t) with
        | Except.ok c => c
        | Except.error _ => t
      match record with
      | Option.none => TransPhase.done (Option.some t) (Option.some corrected)
      | Option.some rec =>
        match env.updateTranscription rec.id UpdSite.completed with
        | Except.ok _ => TransPhase.done (Option.some t) (Option.some corrected)
        | Except.error _ =>
          match env.updateTranscription rec.id UpdSite.transcribeFailed with
          | Except.ok _ => TransPhase.done Option.none (Option.some corrected)
          | Except.error _ => TransPhase.abort
    | Option.none =>
      match record with
      | Option.none => TransPhase.done Option.none Option.none
      | Option.some rec =>
        match env.updateTranscription rec.id UpdSite.noText with
        | Except.ok _ => TransPhase.done Option.none Option.none
        | Except.error _ =>
          match env.updateTranscription rec.id UpdSite.transcribeFailed with
          | Except.ok _ => TransPhase.done Option.none Option.none
          | Except.error _ => TransPhase.abort

/-- The metadata fields `_process_youtube` merges into the caller
metadata (lines 469-480). -/
def youtubeFields (url path : String) (raw : Option String)
    (record : Option TRec) : Dict :=
  [("source_type", Val.str "youtube"),
   ("youtube_url", Val.str url),
   ("audio_file_path", Val.str path),
   ("content_type", Val.str "audio/mp3"),
   ("transcription_available", Val.bool raw.isSome),
   ("transcription_record_id",
     match record with
     | Option.some r => Val.int r.id
     | Option.none => Val.none)]

/-- The embeddable text `_process_youtube` selects (lines 482-489):
Python `corrected_transcription or raw_transcription` when that value is
truthy, otherwise the synthetic URL-only fallback string. -/
def youtubeTextContent (url : String) (raw corrected : Option String) :
    String :=
  let orVal : Option String :=
    match corrected with
    | Option.some c => if c.data.isEmpty then raw else Option.some c
    | Option.none => raw
  match orVal with
  | Option.some t =>
    if t.data.isEmpty then "YouTube video: " ++ url else t
  | Option.none => "YouTube video: " ++ url

/-- `DataIngestionService._process_youtube` (lines 311-531).  The URL is
validated first; the transcription DB record is created inside its own
`try` (failure degrades to no record); a download failure or raise
returns `False`; the transcription phase is best-effort; the metadata is
merged in place into the caller's dict; the content (transcript or
URL-only fallback) is chunked, embedded and stored; the audio file
cleanup result is ignored. -/
def processYoutube (env : Env) (url : String) (meta : Option Dict) :
    PResult :=
  if !isYoutubeUrl url then ⟨false, [], meta⟩
  else
    let record : Option TRec :=
      match env.createTranscription url with
      | Except.ok r => r
      | Except.error _ => Option.none
    match env.downloadAudio url with
    | Except.error _ => ⟨false, [], meta⟩
    | Except.ok Option.none =>
      -- the `update_transcription` on line 365 may raise, but the outer
      -- handler still returns `False` with no store call either way
      ⟨false, [], meta⟩
    | Except.ok (Option.some path) =>
      -- file-info update (lines 374-387), result swallowed by its `try`
      let _fileInfo :=
        match record with
        | Option.some rec => env.updateTranscription rec.id UpdSite.fileInfo
        | Option.none => Except.ok ()
      match youtubeTransPhase env record path with
      | TransPhase.abort =>
        -- outer handler (lines 515-531): error-status update swallowed
        ⟨false, [], meta⟩
      | TransPhase.done raw corrected =>
        let cm := combineMeta meta (youtubeFields url path raw record)
        let textContent := youtubeTextContent url raw corrected
        match chunkEmbedAndStore env textContent (Option.some cm.1) with
        | (Except.error _, st) => ⟨false, st, cm.2⟩
        | (Except.ok success, st) =>
          let _cleanup := env.cleanupFile path
          ⟨success, st, cm.2⟩

/-- `DataIngestionService.process_source` (lines 86-120): dispatch on
`source_type`; an unsupported type raises `ValueError`, every supported
type's handler catches its own internal failures and returns a boolean. -/
def processSource (env : Env) (dataSource sourceType : String)
    (meta : Option Dict) : Except PyErr PResult :=
  if sourceType = "text" then Except.ok (processText env dataSource meta)
  else if sourceType = "pdf" then Except.ok (processPdf env dataSource meta)
  else if sourceType = "markdown" then
    Except.ok (processMarkdown env dataSource meta)
  else if sourceType = "url" then Except.ok (processUrl env dataSource meta)
  else if sourceType = "youtube" then
    Except.ok (processYoutube env dataSource meta)
  else Except.error ⟨"Unsupported data source type: " ++ sourceType⟩

/-! ## Routes layer: source-type dispatch and the async task tracker
(`backend/app/api/routes.py`) -/

/-- The processing type/value selection of `_process_data_source_async`
(routes.py lines 379-390): a `url` submission whose value is a YouTube
URL is reclassified to `youtube` before `process_source` is called, other
URLs stay `url`, and API-submitted `markdown` content is processed as
`text`. -/
def dispatchDataSource (sourceType sourceValue : String) : String × String :=
  if sourceType = "url" then
    if isYoutubeUrl sourceValue then ("youtube", sourceValue)
    else ("url", sourceValue)
  else if sourceType = "markdown" then ("text", sourceValue)
  else (sourceType, sourceValue)

/-- One entry of the in-memory `upload_tasks` map. -/
structure TaskRec where
  status : String
  message : String
  source_type : String
  source_value : String
deriving DecidableEq, Repr

/-- The `upload_tasks` dict, keyed by task id. -/
abbrev TaskMap := List (String × TaskRec)

/-- Python dict lookup on the task map. -/
def taskLookup (m : TaskMap) (taskId : String) : Option TaskRec :=
  (m.find? (fun p => p.1 = taskId)).map (·.2)

/-- Python `upload_tasks[task_id] = record`: replace in place if the key
is present, otherwise append. -/
def taskInsert : TaskMap → String → TaskRec → TaskMap
  | [], taskId, r => [(taskId, r)]
  | p :: rest, taskId, r =>
    if p.1 = taskId then (taskId, r) :: rest else p :: taskInsert rest taskId r

/-- The task-map insertion `add_data_source` performs (routes.py lines
555-561) before it starts the background thread: the new record's status
is `queued`. -/
def addDataSourceTask (m : TaskMap) (taskId sourceType sourceValue : String) :
    TaskMap :=
  taskInsert m taskId
    ⟨"queued", "Data source queued for processing", sourceType, sourceValue⟩

/-- `get_data_source_status` (routes.py lines 609-624): 404 for an
unknown task id, otherwise 200 with the task snapshot. -/
def getDataSourceStatus (m : TaskMap) (taskId : String) :
    Nat × Option TaskRec :=
  match taskLookup m taskId with
  | Option.none => (404, Option.none)
  | Option.some r => (200, Option.some r)

/-- `get_upload_status` (routes.py lines 589-605): identical behaviour. -/
def getUploadStatus (m : TaskMap) (taskId : String) : Nat × Option TaskRec :=
  match taskLookup m taskId with
  | Option.none => (404, Option.none)
  | Option.some r => (200, Option.some r)

/-! ## Spec-modelled chunker and concrete environments -/

/-- Modelled from the spec: the text chunker
(`RecursiveCharacterTextSplitter`, a LangChain class external to this
repository, configured with chunk size 1000 and overlap 200 in
`_create_text_splitter`).  Spec section 4.1: chunks of at most 1000
characters overlapping by about 200, and chunking the empty string yields
the empty sequence.  Fuel equal to the input length bounds the recursion
since each step consumes at least 800 characters. -/
def specChunkF : Nat → List Char → List (List Char)
  | 0, _ => []
  | _ + 1, [] => []
  | f + 1, c :: cs =>
    if (c :: cs).length ≤ 1000 then [c :: cs]
    else (c :: cs).take 1000 :: specChunkF f ((c :: cs).drop 800)

/-- Modelled from the spec: `split_text` of the external chunker. -/
def specSplitText (s : String) : List String :=
  (specChunkF s.data.length s.data).map (fun l => String.mk l)

/-- A concrete environment in which every external call succeeds: short
texts chunk to a single chunk, embeddings are one vector per chunk, the
store accepts everything, loaders fail (individual scenarios override the
fields they exercise). -/
def baseEnv : Env where
  splitText := fun s => if s.data.isEmpty then [] else [s]
  embedDocs := fun cs => Except.ok (cs.map (fun _ => [1]))
  addDocuments := fun _ => Except.ok ()
  loadPdf := fun _ => Except.error ⟨"file not found"⟩
  loadMarkdown := fun _ => Except.error ⟨"file not found"⟩
  loadUrl := fun _ => Except.error ⟨"network unreachable"⟩
  downloadAudio := fun _ => Except.ok Option.none
  transcribeAudio := fun _ => Except.ok Option.none
  createTranscription := fun _ => Except.ok Option.none
  updateTranscription := fun _ _ => Except.ok ()
  cleanupFile := fun _ => Except.ok true

/-- Environment of the degraded YouTube scenario: the audio download
succeeds and the transcription engine raises. -/
def envYtDegraded : Env :=
  { baseEnv with
    downloadAudio := fun _ => Except.ok (Option.some "downloads/audio/video.mp3")
    transcribeAudio := fun _ => Except.error ⟨"whisper.cpp exited with status 1"⟩ }

/-- Environment whose chunker is the spec-modelled splitter. -/
def envSpecSplit : Env :=
  { baseEnv with splitText := specSplitText }

/-- Environment whose PDF loader returns one document whose metadata key
`source` collides with the caller-supplied metadata. -/
def envPdfSource : Env :=
  { baseEnv with
    loadPdf := fun _ =>
      Except.ok [⟨"PDF text content", [("source", Val.str "file.pdf")]⟩] }

/-! ## Dict lemmas -/

theorem dictGet?_cons (p : String × Val) (d : Dict) (k : String) :
    dictGet? (p :: d) k =
      if p.1 = k then Option.some p.2 else dictGet? d k := by
  by_cases h : p.1 = k <;> simp [dictGet?, List.find?_cons, h]

theorem dictGet?_set_self (d : Dict) (k : String) (v : Val) :
    dictGet? (dictSet d k v) k = Option.some v := by
  induction d with
  | nil => simp [dictSet, dictGet?]
  | cons p rest ih =>
    by_cases h : p.1 = k
    · simp [dictSet, h, dictGet?_cons]
    · simp [dictSet, h, dictGet?_cons, ih]

theorem dictGet?_set_other (d : Dict) (k k' : String) (v : Val)
    (h : k' ≠ k) : dictGet? (dictSet d k' v) k = dictGet? d k := by
  induction d with
  | nil => simp [dictSet, dictGet?_cons, dictGet?, h]
  | cons p rest ih =>
    by_cases hp : p.1 = k'
    · simp [dictSet, hp, dictGet?_cons, h]
    · simp [dictSet, hp, dictGet?_cons, ih]

theorem dictGet?_update_of_not_mem (u : Dict) :
    ∀ (d : Dict) (k : String), (∀ p ∈ u, p.1 ≠ k) →
      dictGet? (dictUpdate d u) k = dictGet? d k := by
  induction u with
  | nil => intro d k _; rfl
  | cons q rest ih =>
    intro d k h
    have hq : q.1 ≠ k := h q (by simp)
    have hrest : ∀ p ∈ rest, p.1 ≠ k := by
      intro p hp; exact h p (by simp [hp])
    calc dictGet? (dictUpdate (dictSet d q.1 q.2) rest) k
        = dictGet? (dictSet d q.1 q.2) k := ih _ k hrest
      _ = dictGet? d k := dictGet?_set_other d k q.1 q.2 hq

theorem dictGet?_update_of_get (u : Dict) :
    ∀ (d : Dict) (k : String) (v : Val),
      (u.map Prod.fst).Nodup → dictGet? u k = Option.some v →
      dictGet? (dictUpdate d u) k = Option.some v := by
  induction u with
  | nil => intro d k v _ h; simp [dictGet?] at h
  | cons q rest ih =>
    intro d k v hnd hget
    rw [dictGet?_cons] at hget
    simp only [List.map_cons, List.nodup_cons] at hnd
    by_cases hq : q.1 = k
    · simp only [hq, if_pos rfl] at hget
      cases hget
      have hrest : ∀ p ∈ rest, p.1 ≠ k := by
        intro p hp hk
        exact hnd.1 (hq ▸ hk ▸ List.mem_map_of_mem Prod.fst hp)
      show dictGet? (dictUpdate (dictSet d q.1 q.2) rest) k = _
      rw [dictGet?_update_of_not_mem rest _ k hrest, hq,
        dictGet?_set_self]
    · simp only [hq, if_neg, ite_false] at hget
      exact ih _ k v hnd.2 hget

theorem taskLookup_insert_self (m : TaskMap) (taskId : String) (r : TaskRec) :
    taskLookup (taskInsert m taskId r) taskId = Option.some r := by
  induction m with
  | nil => simp [taskInsert, taskLookup]
  | cons p rest ih =>
    by_cases h : p.1 = taskId
    · simp [taskInsert, h, taskLookup, List.find?_cons]
    · simp only [taskInsert, if_neg h]
      simpa [taskLookup, List.find?_cons, h] using ih

theorem chunkEmbedAndStore_meta (env : Env) (text : String)
    (meta : Option Dict) :
    ∀ call ∈ (chunkEmbedAndStore env text meta).2,
      ∀ md ∈ call.metadatas, md = meta.getD [] := by
  intro call hcall md hmd
  simp only [chunkEmbedAndStore] at hcall
  split at hcall
  · simp at hcall
  · split at hcall
    · simp at hcall
    · split at hcall <;>
      · simp only [List.mem_singleton] at hcall
        subst hcall
        exact List.eq_of_mem_replicate hmd

theorem processLoaded_ok_stores (env : Env) (doc : Doc) (docs : List Doc)
    (meta : Option Dict) :
    ∀ call ∈ (processLoaded env (Except.ok (doc :: docs)) meta).stores,
      call ∈ (chunkEmbedAndStore env
        (String.intercalate "\n" ((doc :: docs).map (fun x => x.page_content)))
        (Option.some (combineMeta meta doc.metadata).1)).2 := by
  intro call hcall
  simp only [processLoaded] at hcall
  split at hcall
  · simp at hcall
  · rcases hq : chunkEmbedAndStore env
        (String.intercalate "\n" ((doc :: docs).map (fun x => x.page_content)))
        (Option.some (combineMeta meta doc.metadata).1) with ⟨r, st⟩
    rw [hq] at hcall
    rw [hq]
    cases r <;> simpa using hcall

/-! ## Claims -/

/-- C2: for every ingestion call whose text content chunks into `N ≥ 1`
chunks, the vector-store add capability is invoked exactly once, and the
documents, embeddings and metadatas sequences passed to it all have
length `N`, with every metadatas element equal to the single combined
metadata mapping of the source (assuming the embedding capability
returns one vector per chunk).  All five source-type handlers funnel into
`_chunk_embed_and_store`, which performs the single `add_documents`
call. -/
theorem C2_single_aligned_store_call (env : Env) (text : String)
    (meta : Option Dict) (chunks : List String) (embs : List (List Int))
    (hchunks : env.splitText text = chunks)
    (hne : chunks ≠ [])
    (hembed : env.embedDocs chunks = Except.ok embs)
    (hlen : embs.length = chunks.length)
    (hstore : ∀ c, env.addDocuments c = Except.ok ()) :
    ∃ call : StoreCall,
      chunkEmbedAndStore env text meta = (Except.ok true, [call]) ∧
      processSource env text "text" meta = Except.ok ⟨true, [call], meta⟩ ∧
      call.documents.length = chunks.length ∧
      call.embeddings.length = chunks.length ∧
      call.metadatas.length = chunks.length ∧
      ∀ md ∈ call.metadatas, md = meta.getD [] := by
  refine ⟨⟨collectionName, chunks, embs,
    List.replicate chunks.length (meta.getD [])⟩, ?_, ?_, rfl, hlen, ?_, ?_⟩
  · simp [chunkEmbedAndStore, hchunks, hne, hembed, hstore]
  · simp [processSource, processText, chunkEmbedAndStore, hchunks, hne,
      hembed, hstore]
  · simp
  · intro md hmd
    exact List.eq_of_mem_replicate hmd

/-- Witness for C2 at a concrete environment and input. -/
theorem C2_single_aligned_store_call_witness :
    ∃ call : StoreCall,
      chunkEmbedAndStore baseEnv "hello world" (Option.some [("k", Val.str "v")]) =
        (Except.ok true, [call]) ∧
      processSource baseEnv "hello world" "text" (Option.some [("k", Val.str "v")]) =
        Except.ok ⟨true, [call], Option.some [("k", Val.str "v")]⟩ ∧
      call.documents.length = ["hello world"].length ∧
      call.embeddings.length = ["hello world"].length ∧
      call.metadatas.length = ["hello world"].length ∧
      ∀ md ∈ call.metadatas,
        md = (Option.some [("k", Val.str "v")] : Option Dict).getD [] :=
  C2_single_aligned_store_call baseEnv "hello world"
    (Option.some [("k", Val.str "v")]) ["hello world"] [[1]]
    rfl (by decide) rfl rfl (fun _ => rfl)

/-- C4: when the (extracted) text content chunks to the empty sequence,
`process_source` returns `False` and the vector store is never invoked;
in particular this is the behaviour for the empty string as source type
`text` (the external chunker yields no chunks for it, see
`specSplitText`). -/
theorem C4_empty_chunks_fail (env : Env) (text : String) (meta : Option Dict)
    (h : env.splitText text = []) :
    chunkEmbedAndStore env text meta = (Except.ok false, []) ∧
    processSource env text "text" meta = Except.ok ⟨false, [], meta⟩ := by
  constructor
  · simp [chunkEmbedAndStore, h]
  · simp [processSource, processText, chunkEmbedAndStore, h]

/-- Witness for C4: the empty string chunked by the spec-modelled
splitter. -/
theorem C4_empty_chunks_fail_witness :
    chunkEmbedAndStore envSpecSplit "" Option.none = (Except.ok false, []) ∧
    processSource envSpecSplit "" "text" Option.none =
      Except.ok ⟨false, [], Option.none⟩ :=
  C4_empty_chunks_fail envSpecSplit "" Option.none rfl

/-- C6: `process_source` raises exactly on unsupported source types; for
each of the five supported types it returns a boolean, every internal
failure having been caught by the handler (`Except.ok` for every
environment, i.e. whatever the external calls do). -/
theorem C6_raises_iff_unsupported (env : Env) (ds : String)
    (meta : Option Dict) (st : String) :
    ((st = "text" ∨ st = "pdf" ∨ st = "markdown" ∨ st = "url" ∨
        st = "youtube") →
      ∃ r, processSource env ds st meta = Except.ok r) ∧
    (¬(st = "text" ∨ st = "pdf" ∨ st = "markdown" ∨ st = "url" ∨
        st = "youtube") →
      processSource env ds st meta =
        Except.error ⟨"Unsupported data source type: " ++ st⟩) := by
  constructor
  · intro h
    rcases h with h | h | h | h | h <;> subst h
    · exact ⟨processText env ds meta, by simp [processSource]⟩
    · exact ⟨processPdf env ds meta, by simp [processSource]⟩
    · exact ⟨processMarkdown env ds meta, by simp [processSource]⟩
    · exact ⟨processUrl env ds meta, by simp [processSource]⟩
    · exact ⟨processYoutube env ds meta, by simp [processSource]⟩
  · intro h
    push_neg at h
    obtain ⟨h1, h2, h3, h4, h5⟩ := h
    simp [processSource, h1, h2, h3, h4, h5]

/-- Witness for C6: a supported type returns a boolean result, the
unsupported type `audio` raises `ValueError`. -/
theorem C6_raises_iff_unsupported_witness :
    (∃ r, processSource baseEnv "some text" "text" Option.none =
      Except.ok r) ∧
    processSource baseEnv "some text" "audio" Option.none =
      Except.error ⟨"Unsupported data source type: " ++ "audio"⟩ :=
  ⟨(C6_raises_iff_unsupported baseEnv "some text" Option.none "text").1
      (Or.inl rfl),
    (C6_raises_iff_unsupported baseEnv "some text" Option.none "audio").2
      (by decide)⟩

/-- C9: a submitted ingestion request is inserted into the task map with
status `queued` (the insertion happens in `add_data_source` before the
background thread is started, so a poll before the background unit's
first write sees `queued`), and both status endpoints return 404 for a
task id not present in the map. -/
theorem C9_queued_then_polled (m : TaskMap)
    (taskId sourceType sourceValue tid2 : String)
    (hunknown : taskLookup m tid2 = Option.none) :
    taskLookup (addDataSourceTask m taskId sourceType sourceValue) taskId =
      Option.some ⟨"queued", "Data source queued for processing",
        sourceType, sourceValue⟩ ∧
    getDataSourceStatus (addDataSourceTask m taskId sourceType sourceValue)
        taskId =
      (200, Option.some ⟨"queued", "Data source queued for processing",
        sourceType, sourceValue⟩) ∧
    getDataSourceStatus m tid2 = (404, Option.none) ∧
    getUploadStatus m tid2 = (404, Option.none) := by
  have h := taskLookup_insert_self m taskId
    ⟨"queued", "Data source queued for processing", sourceType, sourceValue⟩
  exact ⟨h, by simp [getDataSourceStatus, addDataSourceTask, h],
    by simp [getDataSourceStatus, hunknown],
    by simp [getUploadStatus, hunknown]⟩

/-- Witness for C9 on a concrete one-task map. -/
theorem C9_queued_then_polled_witness :
    taskLookup (addDataSourceTask [] "t-1" "url" "https://example.com") "t-1" =
      Option.some ⟨"queued", "Data source queued for processing",
        "url", "https://example.com"⟩ ∧
    getDataSourceStatus (addDataSourceTask [] "t-1" "url" "https://example.com")
        "t-1" =
      (200, Option.some ⟨"queued", "Data source queued for processing",
        "url", "https://example.com"⟩) ∧
    getDataSourceStatus [] "t-2" = (404, Option.none) ∧
    getUploadStatus [] "t-2" = (404, Option.none) :=
  C9_queued_then_polled [] "t-1" "url" "https://example.com" "t-2" rfl

/-- C3: a submission through `/api/data_source/add` with source type
`url` whose value is a YouTube URL (netloc in the fixed allow-list) is
reclassified to `youtube` before `process_source` is invoked, so the
dispatch runs `_process_youtube`; a non-YouTube URL stays `url` and runs
`_process_url`. -/
theorem C3_url_reclassified_to_youtube (env : Env) (value : String)
    (meta : Option Dict) :
    (isYoutubeUrl value = true →
      dispatchDataSource "url" value = ("youtube", value) ∧
      processSource env value "youtube" meta =
        Except.ok (processYoutube env value meta)) ∧
    (isYoutubeUrl value = false →
      dispatchDataSource "url" value = ("url", value) ∧
      processSource env value "url" meta =
        Except.ok (processUrl env value meta)) := by
  constructor
  · intro h
    exact ⟨by simp [dispatchDataSource, h], by simp [processSource]⟩
  · intro h
    exact ⟨by simp [dispatchDataSource, h], by simp [processSource]⟩

/-- Witness for C3: the canonical YouTube watch URL is reclassified, a
plain article URL is not. -/
theorem C3_url_reclassified_to_youtube_witness :
    (dispatchDataSource "url" "https://www.youtube.com/watch?v=dQw4w9WgXcQ" =
        ("youtube", "https://www.youtube.com/watch?v=dQw4w9WgXcQ") ∧
      processSource baseEnv "https://www.youtube.com/watch?v=dQw4w9WgXcQ"
          "youtube" Option.none =
        Except.ok (processYoutube baseEnv
          "https://www.youtube.com/watch?v=dQw4w9WgXcQ" Option.none)) ∧
    (dispatchDataSource "url" "https://example.com/article" =
        ("url", "https://example.com/article") ∧
      processSource baseEnv "https://example.com/article" "url" Option.none =
        Except.ok (processUrl baseEnv "https://example.com/article"
          Option.none)) :=
  ⟨(C3_url_reclassified_to_youtube baseEnv
      "https://www.youtube.com/watch?v=dQw4w9WgXcQ" Option.none).1
      (by decide),
    (C3_url_reclassified_to_youtube baseEnv "https://example.com/article"
      Option.none).2 (by decide)⟩

/-- C1: when the audio download succeeds, the transcription engine
raises, and chunking/embedding/storing succeed, `process_source` on a
YouTube URL returns `True`, the single vector-store call receives the
synthetic fallback text containing the literal URL (not a transcript),
and the metadata stored with every chunk has
`transcription_available = false`. -/
theorem C1_degraded_youtube_ingestion (env : Env) (url path : String)
    (meta : Option Dict) (e : PyErr) (v : List Int)
    (hyt : isYoutubeUrl url = true)
    (hrec : env.createTranscription url = Except.ok Option.none)
    (hdl : env.downloadAudio url = Except.ok (Option.some path))
    (htr : env.transcribeAudio path = Except.error e)
    (hsplit : env.splitText ("YouTube video: " ++ url) =
      ["YouTube video: " ++ url])
    (hembed : env.embedDocs ["YouTube video: " ++ url] = Except.ok [v])
    (hstore : ∀ c, env.addDocuments c = Except.ok ()) :
    processYoutube env url meta =
      ⟨true,
        [⟨collectionName, ["YouTube video: " ++ url], [v],
          [(combineMeta meta
              (youtubeFields url path Option.none Option.none)).1]⟩],
        (combineMeta meta
          (youtubeFields url path Option.none Option.none)).2⟩ ∧
    url.data <:+: ("YouTube video: " ++ url).data ∧
    dictGet?
        (combineMeta meta (youtubeFields url path Option.none Option.none)).1
        "transcription_available" =
      Option.some (Val.bool false) := by
  refine ⟨?_, ?_, ?_⟩
  · simp [processYoutube, hyt, hrec, hdl, htr, youtubeTransPhase,
      youtubeTextContent, chunkEmbedAndStore, hsplit, hembed, hstore]
  · exact ⟨"YouTube video: ".data, [], by simp⟩
  · have hnd : ((youtubeFields url path Option.none Option.none).map
        Prod.fst).Nodup := by
      simp only [youtubeFields, List.map]
      decide
    have hget : dictGet? (youtubeFields url path Option.none Option.none)
        "transcription_available" = Option.some (Val.bool false) := by
      simp only [youtubeFields, dictGet?_cons]
      rw [if_neg (by decide), if_neg (by decide), if_neg (by decide),
        if_neg (by decide)]
      simp
    have hbase : ∀ d : Dict,
        dictGet? (dictUpdate d (youtubeFields url path Option.none Option.none))
          "transcription_available" = Option.some (Val.bool false) := by
      intro d
      exact dictGet?_update_of_get _ d _ _ hnd hget
    cases meta with
    | none => exact hbase []
    | some d =>
      by_cases hd : d.isEmpty
      · simpa [combineMeta, hd] using hbase []
      · simpa [combineMeta, hd] using hbase d

/-- Witness for C1 at a concrete degraded-transcription environment. -/
theorem C1_degraded_youtube_ingestion_witness :
    processYoutube envYtDegraded "https://youtu.be/dQw4w9WgXcQ" Option.none =
      ⟨true,
        [⟨collectionName,
          ["YouTube video: " ++ "https://youtu.be/dQw4w9WgXcQ"], [[1]],
          [(combineMeta Option.none
              (youtubeFields "https://youtu.be/dQw4w9WgXcQ"
                "downloads/audio/video.mp3" Option.none Option.none)).1]⟩],
        (combineMeta Option.none
          (youtubeFields "https://youtu.be/dQw4w9WgXcQ"
            "downloads/audio/video.mp3" Option.none Option.none)).2⟩ ∧
    "https://youtu.be/dQw4w9WgXcQ".data <:+:
      ("YouTube video: " ++ "https://youtu.be/dQw4w9WgXcQ").data ∧
    dictGet?
        (combineMeta Option.none
          (youtubeFields "https://youtu.be/dQw4w9WgXcQ"
            "downloads/audio/video.mp3" Option.none Option.none)).1
        "transcription_available" =
      Option.some (Val.bool false) :=
  C1_degraded_youtube_ingestion envYtDegraded "https://youtu.be/dQw4w9WgXcQ"
    "downloads/audio/video.mp3" Option.none
    ⟨"whisper.cpp exited with status 1"⟩ [1]
    (by decide) rfl rfl rfl rfl rfl (fun _ => rfl)

/-- C5 counterexample: the claim says a caller-supplied metadata value
survives a key collision with extractor metadata, but `dict.update`
applied with the extractor metadata overwrites it: for a PDF whose loader
metadata carries `source = "file.pdf"` and caller metadata
`source = "caller"`, the stored metadata holds the extractor's value. -/
theorem C5_caller_key_overwritten_counterexample :
    processPdf envPdfSource "report.pdf"
        (Option.some [("source", Val.str "caller")]) =
      ⟨true,
        [⟨"default_collection", ["PDF text content"], [[1]],
          [[("source", Val.str "file.pdf")]]⟩],
        Option.some [("source", Val.str "file.pdf")]⟩ ∧
    dictGet? [("source", Val.str "file.pdf")] "source" ≠
      Option.some (Val.str "caller") := by
  constructor
  · decide
  · decide

/-- C5 amended: on a key collision between caller-supplied and
extractor-derived metadata, the extractor's value wins (the merge is
last-writer-wins with `dict.update(extractor_metadata)` applied after the
caller metadata), identically for the PDF, Markdown and URL handlers. -/
theorem C5_extractor_key_wins (env : Env) (path : String) (d : Dict)
    (doc : Doc) (docs : List Doc) (k : String) (v w : Val)
    (hnd : (doc.metadata.map Prod.fst).Nodup)
    (hext : dictGet? doc.metadata k = Option.some v)
    (_hcaller : dictGet? d k = Option.some w) :
    (env.loadPdf path = Except.ok (doc :: docs) →
      ∀ call ∈ (processPdf env path (Option.some d)).stores,
        ∀ md ∈ call.metadatas, dictGet? md k = Option.some v) ∧
    (env.loadMarkdown path = Except.ok (doc :: docs) →
      ∀ call ∈ (processMarkdown env path (Option.some d)).stores,
        ∀ md ∈ call.metadatas, dictGet? md k = Option.some v) ∧
    (env.loadUrl path = Except.ok (doc :: docs) →
      ∀ call ∈ (processUrl env path (Option.some d)).stores,
        ∀ md ∈ call.metadatas, dictGet? md k = Option.some v) := by
  have key : ∀ loaded, loaded = Except.ok (doc :: docs) →
      ∀ call ∈ (processLoaded env loaded (Option.some d)).stores,
        ∀ md ∈ call.metadatas, dictGet? md k = Option.some v := by
    intro loaded hl call hcall md hmd
    subst hl
    have hmd2 : md = (Option.some
        (combineMeta (Option.some d) doc.metadata).1).getD [] :=
      chunkEmbedAndStore_meta env _ _ call
        (processLoaded_ok_stores env doc docs (Option.some d) call hcall) md hmd
    have hcm1 : ∀ base : Dict,
        dictGet? (dictUpdate base doc.metadata) k = Option.some v :=
      fun base => dictGet?_update_of_get _ base _ _ hnd hext
    by_cases hd : d.isEmpty <;>
      simp only [hmd2, combineMeta, hd, ite_true, ite_false, Option.getD] <;>
      exact hcm1 _
  exact ⟨key _, key _, key _⟩

/-- Witness for the amended C5 at the concrete colliding `source` key. -/
theorem C5_extractor_key_wins_witness :
    dictGet? [("source", Val.str "file.pdf")] "source" =
      Option.some (Val.str "file.pdf") :=
  (C5_extractor_key_wins envPdfSource "report.pdf"
      [("source", Val.str "caller")]
      ⟨"PDF text content", [("source", Val.str "file.pdf")]⟩ []
      "source" (Val.str "file.pdf") (Val.str "caller")
      (by decide) (by decide) (by decide)).1 rfl
    ⟨"default_collection", ["PDF text content"], [[1]],
      [[("source", Val.str "file.pdf")]]⟩
    (by decide) [("source", Val.str "file.pdf")] (by decide)

/-- C7 counterexample: the claim says the correction stage never raises
for every input including `None` and the empty string, but
`correct_transcription` raises `ValueError` for both before entering its
protective `try` block. -/
theorem C7_raises_on_empty_counterexample :
    correctTranscriptionPy Option.none =
      Except.error ⟨"Raw text must be a non-empty string"⟩ ∧
    correctTranscriptionPy (Option.some "") =
      Except.error ⟨"Raw text must be a non-empty string"⟩ :=
  ⟨rfl, rfl⟩

/-- C7 amended: for every non-empty string input the correction stage
never raises (its `try` body returns a corrected string and any internal
error is converted to returning the input unchanged); `None`, the empty
string and non-string values instead raise `ValueError`. -/
theorem C7_no_raise_on_nonempty (s : String) (h : s ≠ "") :
    ∃ r, correctTranscriptionPy (Option.some s) = Except.ok r := by
  refine ⟨⟨correctCore s.data⟩, ?_⟩
  have hd : s.data.isEmpty = false := by
    cases hs : s.data with
    | nil => exact absurd (by cases s; simp_all) h
    | cons c cs => rfl
  simp [correctTranscriptionPy, hd]

/-- Witness for the amended C7. -/
theorem C7_no_raise_on_nonempty_witness :
    ∃ r, correctTranscriptionPy (Option.some "hello world") = Except.ok r :=
  C7_no_raise_on_nonempty "hello world" (by decide)

/-- C10 counterexample: the claim says every non-`None` caller metadata
dict is mutated in place, but `metadata or \x7b\x7d` replaces a falsy
(empty) dict with a fresh one, so with an empty caller dict the extractor
fields reach the stored metadata while the caller's dict stays empty. -/
theorem C10_empty_dict_not_mutated_counterexample :
    (processPdf envPdfSource "report.pdf" (Option.some [])).callerMeta =
      Option.some [] ∧
    (processPdf envPdfSource "report.pdf" (Option.some [])).stores =
      [⟨"default_collection", ["PDF text content"], [[1]],
        [[("source", Val.str "file.pdf")]]⟩] ∧
    dictGet? [] "source" = Option.none := by
  refine ⟨?_, ?_, ?_⟩ <;> decide

/-- C10 amended: for every truthy (non-`None`, non-empty) caller metadata
dict and a source type other than plain text, the extractor-derived
fields are written into the caller's own dict object, which therefore
contains the merged metadata after the call (shown for the PDF handler
and for the degraded-path YouTube handler). -/
theorem C10_caller_dict_mutated (env : Env) (d : Dict) (hne : d ≠ []) :
    (∀ path doc docs, env.loadPdf path = Except.ok (doc :: docs) →
      (pyStripStr (String.intercalate "\n"
        ((doc :: docs).map (fun x => x.page_content)))).data.isEmpty = false →
      (processPdf env path (Option.some d)).callerMeta =
        Option.some (dictUpdate d doc.metadata)) ∧
    (∀ url path e, isYoutubeUrl url = true →
      env.createTranscription url = Except.ok Option.none →
      env.downloadAudio url = Except.ok (Option.some path) →
      env.transcribeAudio path = Except.error e →
      (processYoutube env url (Option.some d)).callerMeta =
        Option.some
          (dictUpdate d (youtubeFields url path Option.none Option.none))) := by
  have hd : d.isEmpty = false := by
    cases d with
    | nil => exact absurd rfl hne
    | cons p rest => rfl
  constructor
  · intro path doc docs hload hstrip
    unfold processPdf processLoaded
    rw [hload]
    simp only [hstrip, Bool.false_eq_true, ite_false, combineMeta, hd]
    cases chunkEmbedAndStore env _ _ with
    | mk r st => cases r <;> simp
  · intro url path e hyt hrec hdl htr
    unfold processYoutube
    rw [hyt]
    simp only [Bool.not_true, Bool.false_eq_true, ite_false, hrec, hdl, htr,
      youtubeTransPhase]
    simp only [combineMeta, hd, Bool.false_eq_true, ite_false]
    cases chunkEmbedAndStore env _ _ with
    | mk r st => cases r <;> simp

/-- Witness for the amended C10 on a concrete non-empty caller dict. -/
theorem C10_caller_dict_mutated_witness :
    (processPdf envPdfSource "report.pdf"
        (Option.some [("k", Val.str "v")])).callerMeta =
      Option.some (dictUpdate [("k", Val.str "v")]
        [("source", Val.str "file.pdf")]) :=
  (C10_caller_dict_mutated envPdfSource [("k", Val.str "v")]
      (by decide)).1 "report.pdf"
    ⟨"PDF text content", [("source", Val.str "file.pdf")]⟩ [] rfl (by decide)

/-! ## Identity lemmas for the correction passes on clean text -/

theorem asciiSingleSpaced_space (cs : List Char)
    (h : asciiSingleSpaced cs = true) :
    ∀ c ∈ cs, pyIsSpace c = true → c = ' ' := by
  intro c hc hsp
  have hall := List.all_eq_true.mp h c hc
  simp only [hsp, Bool.not_true, Bool.false_or, Bool.and_eq_true,
    decide_eq_true_eq] at hall
  exact hall.2

theorem asciiSingleSpaced_tail (c : Char) (cs : List Char)
    (h : asciiSingleSpaced (c :: cs) = true) : asciiSingleSpaced cs = true := by
  simp only [asciiSingleSpaced, List.all_cons, Bool.and_eq_true] at h ⊢
  exact h.2

theorem noDoubleSpace_tail (c : Char) (cs : List Char)
    (h : noDoubleSpace (c :: cs) = true) : noDoubleSpace cs = true := by
  cases cs with
  | nil => rfl
  | cons d rest =>
    simp only [noDoubleSpace, Bool.and_eq_true] at h
    exact h.2

theorem sentCapOK_tail (c : Char) (cs : List Char)
    (h : sentCapOK (c :: cs) = true) : sentCapOK cs = true := by
  cases cs with
  | nil => rfl
  | cons d rest =>
    cases rest with
    | nil => rfl
    | cons e r =>
      simp only [sentCapOK, Bool.and_eq_true] at h
      exact h.2

theorem no_newline_of_ass (cs : List Char)
    (h : asciiSingleSpaced cs = true) : ∀ c ∈ cs, c ≠ '\n' := by
  intro c hc heq
  subst heq
  have := asciiSingleSpaced_space cs h '\n' hc (by decide)
  cases this

theorem collapseWs_id (cs : List Char) (hass : asciiSingleSpaced cs = true)
    (hnd : noDoubleSpace cs = true) : collapseWs cs = cs := by
  induction cs with
  | nil => rfl
  | cons c rest ih =>
    cases rest with
    | nil =>
      show collapseWs [c] = [c]
      by_cases hsp : pyIsSpace c = true
      · have hc := asciiSingleSpaced_space [c] hass c (by simp) hsp
        simp [collapseWs, hsp, hc]
      · simp only [Bool.not_eq_true] at hsp
        simp [collapseWs, hsp]
    | cons d rest2 =>
      have hcd : (pyIsSpace c && pyIsSpace d) = false := by
        by_cases hc : pyIsSpace c = true
        · by_cases hd : pyIsSpace d = true
          · have hc' := asciiSingleSpaced_space _ hass c (by simp) hc
            have hd' := asciiSingleSpaced_space _ hass d (by simp) hd
            subst hc'
            subst hd'
            simp only [noDoubleSpace, Bool.and_eq_true] at hnd
            simp at hnd
          · simp only [Bool.not_eq_true] at hd
            simp [hd]
        · simp only [Bool.not_eq_true] at hc
          simp [hc]
      have htl := ih (asciiSingleSpaced_tail c _ hass) (noDoubleSpace_tail c _ hnd)
      simp only [collapseWs, hcd, Bool.false_eq_true, ite_false]
      rw [htl]
      by_cases hc : pyIsSpace c = true
      · have hc' := asciiSingleSpaced_space _ hass c (by simp) hc
        simp [hc, hc']
      · simp only [Bool.not_eq_true] at hc
        simp [hc]

theorem pySplitNL_no_newline (cs : List Char) (h : ∀ c ∈ cs, c ≠ '\n') :
    pySplitNL cs = [cs] := by
  induction cs with
  | nil => rfl
  | cons c rest ih =>
    have hc : c ≠ '\n' := h c (by simp)
    have htl := ih (fun x hx => h x (by simp [hx]))
    simp [pySplitNL, hc, htl]

theorem joinNL_singleton (l : List Char) : joinNL [l] = l := by
  simp [joinNL, List.intercalate]

theorem dropWhile_head_not (cs : List Char)
    (h : ∀ c, cs.head? = Option.some c → pyIsSpace c = false) :
    cs.dropWhile pyIsSpace = cs := by
  cases cs with
  | nil => rfl
  | cons c rest => simp [List.dropWhile_cons, h c rfl]

theorem isSentPunct_not_space (c : Char) (h : isSentPunct c = true) :
    pyIsSpace c = false := by
  simp only [isSentPunct, Bool.or_eq_true, decide_eq_true_eq] at h
  rcases h with (h | h) | h <;> subst h <;> decide

theorem pyStrip_id (cs : List Char)
    (hhead : ∀ c, cs.head? = Option.some c → pyIsSpace c = false)
    (hlast : ∀ c, cs.getLast? = Option.some c → pyIsSpace c = false) :
    pyStrip cs = cs := by
  unfold pyStrip
  rw [dropWhile_head_not cs hhead]
  rw [dropWhile_head_not cs.reverse
    (fun c hc => hlast c (by rwa [List.head?_reverse] at hc))]
  exact List.reverse_reverse cs

theorem headOK_not_space (cs : List Char) (hass : asciiSingleSpaced cs = true)
    (hh : headOK cs = true) :
    ∀ c, cs.head? = Option.some c → pyIsSpace c = false := by
  intro c hc
  cases cs with
  | nil => cases hc
  | cons c0 rest =>
    obtain rfl : c0 = c := by simpa using hc
    simp only [headOK, Bool.and_eq_true, Bool.not_eq_true',
      decide_eq_false_iff_not] at hh
    by_cases hsp : pyIsSpace c0 = true
    · exact absurd (asciiSingleSpaced_space _ hass c0 (by simp) hsp) hh.1
    · simpa using hsp

theorem endsSentPunct_last (cs : List Char) (h : endsSentPunct cs = true) :
    ∀ c, cs.getLast? = Option.some c → pyIsSpace c = false := by
  intro c hc
  unfold endsSentPunct at h
  rw [hc] at h
  exact isSentPunct_not_space c h

theorem normalizeWs_id (cs : List Char) (hass : asciiSingleSpaced cs = true)
    (hnd : noDoubleSpace cs = true) (hh : headOK cs = true)
    (hend : endsSentPunct cs = true) : normalizeWs cs = cs := by
  unfold normalizeWs
  rw [collapseWs_id cs hass hnd, pySplitNL_no_newline cs (no_newline_of_ass cs hass)]
  simp only [List.map]
  rw [pyStrip_id cs (headOK_not_space cs hass hh) (endsSentPunct_last cs hend)]
  exact joinNL_singleton cs

theorem improvePunct_id (cs : List Char) (hass : asciiSingleSpaced cs = true)
    (hh : headOK cs = true) (hend : endsSentPunct cs = true) :
    improvePunct cs = cs := by
  unfold improvePunct
  rw [pySplitNL_no_newline cs (no_newline_of_ass cs hass)]
  simp only [List.map]
  unfold improveLine
  rw [pyStrip_id cs (headOK_not_space cs hass hh) (endsSentPunct_last cs hend)]
  simp only [hend, Bool.not_true, Bool.and_false, Bool.false_eq_true, ite_false]
  exact joinNL_singleton cs

theorem stripWordCI_drop : ∀ (w l r : List Char),
    stripWordCI w l = Option.some r →
    r = l.drop w.length ∧ w.length ≤ l.length := by
  intro w
  induction w with
  | nil =>
    intro l r h
    simp only [stripWordCI, Option.some.injEq] at h
    subst h
    simp
  | cons a ws ih =>
    intro l r h
    cases l with
    | nil => cases h
    | cons c cs =>
      simp only [stripWordCI] at h
      by_cases hc : ciEq c a = true
      · rw [if_pos hc] at h
        obtain ⟨h1, h2⟩ := ih cs r h
        refine ⟨by simpa using h1, by simpa using Nat.succ_le_succ h2⟩
      · rw [if_neg hc] at h
        cases h

theorem take_sub_append (l rest repl : List Char) (hsuf : rest <:+ l)
    (htake : l.take (l.length - rest.length) = repl) : repl ++ rest = l := by
  obtain ⟨t, ht⟩ := hsuf
  have hlen : l.length - rest.length = t.length := by
    rw [← ht]
    simp [List.length_append]
  rw [hlen, ← ht, List.take_left] at htake
  rw [← htake]
  exact ht

theorem tryWordTok_suffix (w l rest : List Char)
    (h : tryWordTok w l = Option.some rest) : rest <:+ l := by
  unfold tryWordTok at h
  cases hs : stripWordCI w l with
  | none => simp [hs] at h
  | some r =>
    simp only [hs] at h
    obtain ⟨h1, _⟩ := stripWordCI_drop w l r hs
    have hr : r <:+ l := h1 ▸ List.drop_suffix w.length l
    cases r with
    | nil =>
      simp only [Option.some.injEq] at h
      subst h
      exact hr
    | cons d ds =>
      by_cases hd : pyIsWordChar d = true
      · simp [hd] at h
      · simp only [hd, Bool.false_eq_true, ite_false, Option.some.injEq] at h
        subst h
        exact hr

theorem subWordF_id (w repl : List Char) : ∀ (f : Nat) (prevWord : Bool)
    (cs : List Char), subWordFixedF w repl f prevWord cs = true →
    subWordF w repl f prevWord cs = cs := by
  intro f
  induction f with
  | zero => intro prevWord cs _; rfl
  | succ f ih =>
    intro prevWord cs h
    cases cs with
    | nil => rfl
    | cons c cs =>
      by_cases hp : prevWord = true
      · simp only [subWordF, subWordFixedF, hp, ite_true] at h ⊢
        rw [ih _ _ h]
      · simp only [Bool.not_eq_true] at hp
        cases htok : tryWordTok w (c :: cs) with
        | none =>
          simp only [subWordF, subWordFixedF, hp, Bool.false_eq_true,
            ite_false, htok] at h ⊢
          rw [ih _ _ h]
        | some rest =>
          simp only [subWordF, subWordFixedF, hp, Bool.false_eq_true,
            ite_false, htok, Bool.and_eq_true, decide_eq_true_eq] at h ⊢
          obtain ⟨htake, hfix⟩ := h
          rw [ih _ _ hfix]
          exact take_sub_append (c :: cs) rest repl
            (tryWordTok_suffix w (c :: cs) rest htok) htake

theorem tryYouKnowTok_suffix (l : List Char) (n : Nat) (rest : List Char)
    (h : tryYouKnowTok l = Option.some (n, rest)) : rest <:+ l := by
  unfold tryYouKnowTok at h
  cases hs : stripWordCI ['y', 'o', 'u'] l with
  | none => simp [hs] at h
  | some r1 =>
    simp only [hs] at h
    have hr1 : r1 <:+ l :=
      (stripWordCI_drop _ l r1 hs).1 ▸ List.drop_suffix _ l
    by_cases hsp : (r1.takeWhile pyIsSpace).isEmpty = true
    · simp [hsp] at h
    · simp only [hsp, Bool.false_eq_true, ite_false] at h
      have hr2 : r1.dropWhile pyIsSpace <:+ l :=
        (List.dropWhile_suffix pyIsSpace).trans hr1
      cases hk : stripWordCI ['k', 'n', 'o', 'w'] (r1.dropWhile pyIsSpace) with
      | none => simp [hk] at h
      | some r3 =>
        simp only [hk] at h
        have hr3 : r3 <:+ l :=
          ((stripWordCI_drop _ _ r3 hk).1 ▸
            List.drop_suffix _ (r1.dropWhile pyIsSpace)).trans hr2
        cases r3 with
        | nil =>
          simp only [Option.some.injEq, Prod.mk.injEq] at h
          rw [← h.2]
          exact hr3
        | cons d ds =>
          by_cases hd : pyIsWordChar d = true
          · simp [hd] at h
          · simp only [hd, Bool.false_eq_true, ite_false, Option.some.injEq,
              Prod.mk.injEq] at h
            rw [← h.2]
            exact hr3

theorem subYouKnowF_id : ∀ (f : Nat) (prevWord : Bool) (cs : List Char),
    subYouKnowFixedF f prevWord cs = true →
    subYouKnowF f prevWord cs = cs := by
  intro f
  induction f with
  | zero => intro prevWord cs _; rfl
  | succ f ih =>
    intro prevWord cs h
    cases cs with
    | nil => rfl
    | cons c cs =>
      by_cases hp : prevWord = true
      · simp only [subYouKnowF, subYouKnowFixedF, hp, ite_true] at h ⊢
        rw [ih _ _ h]
      · simp only [Bool.not_eq_true] at hp
        cases htok : tryYouKnowTok (c :: cs) with
        | none =>
          simp only [subYouKnowF, subYouKnowFixedF, hp, Bool.false_eq_true,
            ite_false, htok] at h ⊢
          rw [ih _ _ h]
        | some pr =>
          rcases pr with ⟨n, rest⟩
          simp only [subYouKnowF, subYouKnowFixedF, hp, Bool.false_eq_true,
            ite_false, htok, Bool.and_eq_true, decide_eq_true_eq] at h ⊢
          obtain ⟨htake, hfix⟩ := h
          rw [ih _ _ hfix]
          exact take_sub_append (c :: cs) rest youKnowRepl
            (tryYouKnowTok_suffix (c :: cs) n rest htok) htake

theorem fixCommonErrors_id (cs : List Char)
    (hi : subWordFixedF ['i'] ['I'] cs.length false cs = true)
    (hyk : subYouKnowFixedF cs.length false cs = true)
    (huh : subWordFixedF ['u', 'h'] [] cs.length false cs = true)
    (hum : subWordFixedF ['u', 'm'] [] cs.length false cs = true)
    (her : subWordFixedF ['e', 'r'] [] cs.length false cs = true) :
    fixCommonErrors cs = cs := by
  unfold fixCommonErrors subWord subYouKnow
  rw [subWordF_id _ _ _ _ _ hi, subYouKnowF_id _ _ _ hyk,
    subWordF_id _ _ _ _ _ huh, subWordF_id _ _ _ _ _ hum,
    subWordF_id _ _ _ _ _ her]

theorem capSentF_nil (f : Nat) (b : Bool) : capSentF f b [] = [] := by
  cases f <;> rfl

theorem sentPunct_not_newline (c : Char) (h : isSentPunct c = true) :
    (c == '\n') = false := by
  simp only [isSentPunct, Bool.or_eq_true, decide_eq_true_eq] at h
  rcases h with (h | h) | h <;> subst h <;> decide

theorem capSentF_id : ∀ (f : Nat) (cs : List Char) (b : Bool),
    asciiSingleSpaced cs = true → noDoubleSpace cs = true →
    sentCapOK cs = true →
    (b = true → (match cs.head? with
                 | Option.some c => isLowerAZ c = false
                 | Option.none => True)) →
    capSentF f b cs = cs := by
  intro f
  induction f with
  | zero => intro cs b _ _ _ _; rfl
  | succ f ih =>
    intro cs b hass hnd hcap hb
    cases cs with
    | nil => rfl
    | cons c cs =>
      have hnl : (c == '\n') = false := by
        have := no_newline_of_ass _ hass c (by simp)
        simpa using this
      have hlow : (b && isLowerAZ c) = false := by
        by_cases hbv : b = true
        · have hlc : isLowerAZ c = false := hb hbv
          simp [hbv, hlc]
        · have hbf : b = false := by simpa using hbv
          simp [hbf]
      by_cases hp : isSentPunct c = true
      · cases cs with
        | nil =>
          simp only [capSentF, hlow, Bool.false_eq_true, ite_false, hp,
            ite_true, List.dropWhile_nil]
          rw [capSentF_nil]
        | cons e cs' =>
          by_cases hse : pyIsSpace e = true
          · have he : e = ' ' := asciiSingleSpaced_space _ hass e (by simp) hse
            subst he
            cases cs' with
            | nil =>
              have hdw : List.dropWhile pyIsSpace [' '] = [] := by decide
              simp only [capSentF, hlow, Bool.false_eq_true, ite_false, hp,
                ite_true, hdw, hnl]
              rw [ih [' '] false (by decide) (by decide) (by decide)
                (fun h => (Bool.false_ne_true h).elim)]
            | cons d r =>
              have hd : pyIsSpace d = false := by
                by_cases hds : pyIsSpace d = true
                · have hd' := asciiSingleSpaced_space _ hass d (by simp) hds
                  subst hd'
                  simp [noDoubleSpace] at hnd
                · simpa using hds
              have hdl : isLowerAZ d = false := by
                have h1 : (isSentPunct c && pyIsSpace ' ' && isLowerAZ d) =
                    false := by
                  simp only [sentCapOK, Bool.and_eq_true,
                    Bool.not_eq_true'] at hcap
                  exact hcap.1
                rw [hp, (by decide : pyIsSpace ' ' = true)] at h1
                simpa using h1
              have hdw : List.dropWhile pyIsSpace (' ' :: d :: r) = d :: r := by
                simp [List.dropWhile_cons, hd,
                  (by decide : pyIsSpace ' ' = true)]
              have htw : List.takeWhile pyIsSpace (' ' :: d :: r) = [' '] := by
                simp [List.takeWhile_cons, hd,
                  (by decide : pyIsSpace ' ' = true)]
              simp only [capSentF, hlow, Bool.false_eq_true, ite_false, hp,
                ite_true, hdw, htw, hdl, List.isEmpty_cons, Bool.not_false,
                Bool.and_false, hnl]
              rw [ih (' ' :: d :: r) false
                (asciiSingleSpaced_tail _ _ hass)
                (noDoubleSpace_tail _ _ hnd)
                (sentCapOK_tail _ _ hcap)
                (fun h => (Bool.false_ne_true h).elim)]
          · have hse' : pyIsSpace e = false := by simpa using hse
            have hdw : List.dropWhile pyIsSpace (e :: cs') = e :: cs' := by
              simp [List.dropWhile_cons, hse']
            have htw : List.takeWhile pyIsSpace (e :: cs') = [] := by
              simp [List.takeWhile_cons, hse']
            simp only [capSentF, hlow, Bool.false_eq_true, ite_false, hp,
              ite_true, hdw, htw, List.isEmpty_nil, Bool.not_true,
              Bool.false_and, hnl]
            rw [ih (e :: cs') false
              (asciiSingleSpaced_tail _ _ hass)
              (noDoubleSpace_tail _ _ hnd)
              (sentCapOK_tail _ _ hcap)
              (fun h => (Bool.false_ne_true h).elim)]
      · have hp' : isSentPunct c = false := by simpa using hp
        simp only [capSentF, hlow, Bool.false_eq_true, ite_false, hp', hnl]
        rw [ih cs false
          (asciiSingleSpaced_tail _ _ hass)
          (noDoubleSpace_tail _ _ hnd)
          (sentCapOK_tail _ _ hcap)
          (fun h => (Bool.false_ne_true h).elim)]

theorem capFirstChar_id (cs : List Char) (hh : headOK cs = true) :
    capFirstChar cs = cs := by
  cases cs with
  | nil => rfl
  | cons c rest =>
    simp only [headOK, Bool.and_eq_true, Bool.not_eq_true'] at hh
    simp [capFirstChar, hh.2]

theorem correctCore_id_of_clean (cs : List Char)
    (h : isCleanAmended cs = true) : correctCore cs = cs := by
  simp only [isCleanAmended, isCleanSpec, Bool.and_eq_true] at h
  obtain ⟨⟨⟨⟨⟨⟨⟨⟨⟨hh, hass⟩, hnd⟩, hend⟩, hcap⟩, hi⟩, huh⟩, hum⟩, her⟩,
    hyk⟩ := h
  have hbTrue : (true = true) → (match cs.head? with
      | Option.some c => isLowerAZ c = false
      | Option.none => True) := by
    intro _
    cases cs with
    | nil => trivial
    | cons c rest =>
      simp only [headOK, Bool.and_eq_true, Bool.not_eq_true'] at hh
      simpa using hh.2
  unfold correctCore capitalizeSent capSent
  rw [normalizeWs_id cs hass hnd hh hend,
    fixCommonErrors_id cs hi hyk huh hum her,
    improvePunct_id cs hass hh hend,
    capSentF_id cs.length cs true hass hnd hcap hbTrue,
    capFirstChar_id cs hh]
  exact pyStrip_id cs (headOK_not_space cs hass hh) (endsSentPunct_last cs hend)

/-- C8 counterexample: the claim's own cleanliness conditions (properly
punctuated, sentence-capitalized, single-spaced, no `um`/`uh`/`er`
filler, no standalone lowercase `i`) hold for
`I met You Know Who.` — which is already trimmed — yet the correction is
not the identity on it: the `IGNORECASE` pass
`re.sub(r"\byou\s+know\b", "you know", ...)` lowercases the
mid-sentence `You Know`. -/
theorem C8_clean_phrase_counterexample :
    isCleanSpec "I met You Know Who.".data = true ∧
    pyStrip "I met You Know Who.".data = "I met You Know Who.".data ∧
    correctTranscriptionPy (Option.some "I met You Know Who.") ≠
      Except.ok "I met You Know Who." ∧
    correctTranscriptionPy (Option.some "I met You Know Who.") =
      Except.ok "I met you know Who." := by
  refine ⟨by decide, by decide, by decide, by decide⟩

/-- C8 amended: for every non-empty, trimmed, single-line ASCII string
that is clean — properly punctuated, sentence-capitalized,
single-spaced, containing no filler token `um`/`uh`/`er` in any
capitalization, no standalone lowercase `i`, and additionally no
occurrence of the phrase `you know` in any capitalization other than
lowercase — `correct_transcription` returns it unchanged; applying it to
its own output on such input is therefore the identity. -/
theorem C8_clean_input_unchanged (s : String)
    (h : isCleanAmended s.data = true) :
    correctTranscriptionPy (Option.some s) = Except.ok s := by
  have hne : s.data.isEmpty = false := by
    cases hs : s.data with
    | nil =>
      rw [hs] at h
      exact absurd h (by decide)
    | cons c cs => rfl
  simp only [correctTranscriptionPy, hne, Bool.false_eq_true, ite_false]
  rw [correctCore_id_of_clean s.data h]

/-- Witness for the amended C8 on a concrete clean string. -/
theorem C8_clean_input_unchanged_witness :
    correctTranscriptionPy (Option.some "Hello there! How are we? All good.") =
      Except.ok "Hello there! How are we? All good." :=
  C8_clean_input_unchanged "Hello there! How are we? All good." (by decide)

end RagChatbot
